import Mathlib

/-!
Shallow embedding of the `stream` package of iamseth/tiny-headend
(src/unnamed/part_000): the HLS stream manager.

Go strings are Lean `String`; Go `int` is Lean `Int`; timestamps
(`time.Time` values produced by `m.now()`) are abstract clock readings
modelled as `Nat` and supplied as explicit parameters.  The registry
(`map[string]*managedStream`) is modelled extensionally as an association
list with map semantics (insert replaces, erase removes every binding of
the key).  Go pointer identity of a `*managedStream` record, which
`waitForExit` compares with `current != s`, is modelled by a generation
number `gen` stamped from a counter at allocation.  The `done` channel is
modelled by a `doneClosed` flag; external effects (`cmd.Start`,
`cmd.Wait`, `os.MkdirAll`, which event wins a `select`) are oracles passed
as parameters.
-/

/-- Models Go `unicode.IsSpace` on the characters relevant to
`strings.TrimSpace` (Latin-1 range: space, \t, \n, \v, \f, \r, NEL, NBSP;
wider Unicode space classes are irrelevant to every claim). -/
def goIsSpace (c : Char) : Bool :=
  c == ' ' || c == '\t' || c == '\n' || c == '\x0B' || c == '\x0C' ||
  c == '\r' || c == '\u0085' || c == '\u00A0'

/-- Drop trailing characters satisfying `goIsSpace`. -/
def trimRightChars : List Char → List Char
  | [] => []
  | a :: l =>
    match trimRightChars l with
    | [] => if goIsSpace a then [] else [a]
    | l' => a :: l'

/-- Models Go `strings.TrimSpace`: drop leading and trailing whitespace. -/
def trimSpace (s : String) : String :=
  ⟨trimRightChars (s.data.dropWhile goIsSpace)⟩

theorem dropWhile_goIsSpace_idem (l : List Char) :
    (l.dropWhile goIsSpace).dropWhile goIsSpace = l.dropWhile goIsSpace := by
  induction l with
  | nil => rfl
  | cons a l ih =>
    by_cases h : goIsSpace a
    · simpa [List.dropWhile, h] using ih
    · simp [List.dropWhile, h]

theorem trimRightChars_cons (a : Char) (l : List Char) :
    trimRightChars (a :: l) =
      match trimRightChars l with
      | [] => if goIsSpace a then [] else [a]
      | l' => a :: l' := rfl

theorem trimRightChars_idem (l : List Char) :
    trimRightChars (trimRightChars l) = trimRightChars l := by
  induction l with
  | nil => rfl
  | cons a l ih =>
    cases hl : trimRightChars l with
    | nil =>
      rw [trimRightChars_cons, hl]
      by_cases h : goIsSpace a
      · simp [h, trimRightChars]
      · simp [h, trimRightChars_cons, trimRightChars]
    | cons b t =>
      rw [hl] at ih
      rw [trimRightChars_cons, hl]
      show trimRightChars (a :: b :: t) = a :: b :: t
      rw [trimRightChars_cons, ih]

theorem head_trimRightChars (l : List Char) :
    trimRightChars l = [] ∨ (trimRightChars l).head? = l.head? := by
  induction l with
  | nil => exact Or.inl rfl
  | cons a l ih =>
    cases hl : trimRightChars l with
    | nil =>
      rw [trimRightChars_cons, hl]
      by_cases h : goIsSpace a
      · simp [h]
      · simp [h]
    | cons b t =>
      rw [trimRightChars_cons, hl]
      simp

theorem head_dropWhile_goIsSpace (l : List Char) :
    ∀ a, (l.dropWhile goIsSpace).head? = some a → goIsSpace a = false := by
  induction l with
  | nil => intro a h; simp at h
  | cons b l ih =>
    intro a h
    by_cases hb : goIsSpace b
    · exact ih a (by simpa [List.dropWhile, hb] using h)
    · simp [List.dropWhile, hb] at h
      simpa [← h] using hb

theorem dropWhile_head_not_space (l : List Char)
    (h : ∀ a, l.head? = some a → goIsSpace a = false) :
    l.dropWhile goIsSpace = l := by
  cases l with
  | nil => rfl
  | cons a l => simp [List.dropWhile, h a rfl]

theorem trimSpace_idem (s : String) : trimSpace (trimSpace s) = trimSpace s := by
  unfold trimSpace
  apply congrArg String.mk
  set x := s.data.dropWhile goIsSpace with hx
  have hdrop : (trimRightChars x).dropWhile goIsSpace = trimRightChars x := by
    apply dropWhile_head_not_space
    intro a ha
    rcases head_trimRightChars x with h | h
    · rw [h] at ha; simp at ha
    · rw [h] at ha
      have : x.head? = some a := ha
      have hx2 : (x.dropWhile goIsSpace).head? = some a := by
        rw [hx, dropWhile_goIsSpace_idem]; exact this
      exact head_dropWhile_goIsSpace _ a hx2
  rw [hdrop, trimRightChars_idem]

/-- `HLSConfig` from the source (line 32).  `ExtraArgs` is a value list;
Go's defensive copies are the identity under value semantics. -/
structure HLSConfig where
  InputPath : String
  OutputDir : String
  PlaylistName : String
  SegmentPattern : String
  SegmentDurationSeconds : Int
  ListSize : Int
  LoopInput : Bool
  DeleteSegments : Bool
  VideoCodec : String
  AudioCodec : String
  ExtraArgs : List String
  deriving DecidableEq, Repr

/-- `normalizeConfig` from the source (line 418): trim string fields,
validate, fill defaults.  The Go code applies the defaults by sequential
mutation between the validation checks, but every defaulting step writes
a field no other step (and no check after it) reads, so the sequence is
written here as one parallel record construction; the order of the three
error checks (input, output dir, list size) is the Go order.  The Go
`append([]string(nil), cfg.ExtraArgs...)` copy is the identity on the
value. -/
def normalizeConfig (cfg : HLSConfig) : Except String HLSConfig :=
  if trimSpace cfg.InputPath = "" then .error "input path is required"
  else if trimSpace cfg.OutputDir = "" then .error "output dir is required"
  else if cfg.ListSize < 0 then .error "list size must be non-negative"
  else
    .ok
      { InputPath := trimSpace cfg.InputPath
        OutputDir := trimSpace cfg.OutputDir
        PlaylistName :=
          if trimSpace cfg.PlaylistName = "" then "index.m3u8"
          else trimSpace cfg.PlaylistName
        SegmentPattern :=
          if trimSpace cfg.SegmentPattern = "" then "segment_%06d.ts"
          else trimSpace cfg.SegmentPattern
        SegmentDurationSeconds :=
          if cfg.SegmentDurationSeconds ≤ 0 then 6
          else cfg.SegmentDurationSeconds
        ListSize := if cfg.ListSize = 0 then 6 else cfg.ListSize
        LoopInput := cfg.LoopInput
        DeleteSegments := cfg.DeleteSegments
        VideoCodec :=
          if trimSpace cfg.VideoCodec = "" then "copy"
          else trimSpace cfg.VideoCodec
        AudioCodec :=
          if trimSpace cfg.AudioCodec = "" then "copy"
          else trimSpace cfg.AudioCodec
        ExtraArgs := cfg.ExtraArgs }

/-- Models Go `strconv.Itoa`. -/
def strconvItoa (n : Int) : String := toString n

/-- Models Go `filepath.Join` on two components, for components that are
already clean and have no trailing separator (the only shape this program
produces): empty components are skipped, otherwise joined with `/`. -/
def filepathJoin (a b : String) : String :=
  if a = "" then b else if b = "" then a else a ++ "/" ++ b

/-- `buildHLSArgs` from the source (line 458).  The Go
`strings.Join(flags, "+")` over one or two literal flags is written out. -/
def buildHLSArgs (cfg : HLSConfig) : List String :=
  let args := ["-hide_banner", "-nostdin", "-loglevel", "error"]
  let args := args ++ (if cfg.LoopInput then ["-stream_loop", "-1"] else [])
  let args := args ++
    ["-i", cfg.InputPath,
     "-c:v", cfg.VideoCodec,
     "-c:a", cfg.AudioCodec,
     "-f", "hls",
     "-hls_time", strconvItoa cfg.SegmentDurationSeconds,
     "-hls_list_size", strconvItoa cfg.ListSize]
  let flags := if cfg.DeleteSegments
    then "independent_segments+delete_segments" else "independent_segments"
  let args := args ++ ["-hls_flags", flags]
  let args := args ++ ["-hls_segment_filename", filepathJoin cfg.OutputDir cfg.SegmentPattern]
  let args := args ++ cfg.ExtraArgs
  args ++ [filepathJoin cfg.OutputDir cfg.PlaylistName]

/-- Lifecycle states (source line 24). -/
inductive State where
  | starting
  | running
  | stopping
  | stopped
  | failed
  deriving DecidableEq, Repr

/-- `managedStream` (source line 116).  `gen` models the Go pointer
identity of the heap record (`current != s` becomes `current.gen ≠ s.gen`);
`doneClosed` models the `done` channel having been closed.  The `cmd`
handle itself carries no state the claims need: its effects enter as
oracle parameters. -/
structure ManagedStream where
  id : String
  state : State
  cfg : HLSConfig
  pid : Int
  lastErr : String
  startedAt : Nat
  updatedAt : Nat
  stoppedAt : Nat
  playlistPath : String
  binary : String
  args : List String
  gen : Nat
  doneClosed : Bool
  stopReq : Bool
  deriving DecidableEq, Repr

/-- `managedStream.isActive` (source line 133). -/
def ManagedStream.isActive (s : ManagedStream) : Bool :=
  match s.state with
  | .starting | .running | .stopping => true
  | _ => false

/-- `Status` (source line 46); timestamps as abstract clock readings. -/
structure Status where
  StreamID : String
  State : State
  PID : Int
  Config : HLSConfig
  StartedAt : Nat
  UpdatedAt : Nat
  StoppedAt : Nat
  LastError : String
  PlaylistPath : String
  CommandBinary : String
  CommandArgs : List String
  deriving DecidableEq, Repr

/-- `managedStream.toStatus` (source line 142); the Go deep copies of the
slices are the identity under value semantics. -/
def toStatus (s : ManagedStream) : Status :=
  { StreamID := s.id
    State := s.state
    PID := s.pid
    Config := s.cfg
    StartedAt := s.startedAt
    UpdatedAt := s.updatedAt
    StoppedAt := s.stoppedAt
    LastError := s.lastErr
    PlaylistPath := s.playlistPath
    CommandBinary := s.binary
    CommandArgs := s.args }

/-- The registry `map[string]*managedStream`, modelled extensionally. -/
abbrev Registry := List (String × ManagedStream)

def lookupStream : Registry → String → Option ManagedStream
  | [], _ => none
  | (k', s) :: t, k => if k' = k then some s else lookupStream t k

/-- Go `delete(m.streams, k)`: removes every binding of `k` (a Go map has
at most one). -/
def eraseStream : Registry → String → Registry
  | [], _ => []
  | (k', s) :: t, k => if k' = k then eraseStream t k else (k', s) :: eraseStream t k

/-- Go `m.streams[k] = s`: map update. -/
def insertStream (r : Registry) (k : String) (s : ManagedStream) : Registry :=
  (k, s) :: eraseStream r k

theorem lookupStream_eraseStream_self (r : Registry) (k : String) :
    lookupStream (eraseStream r k) k = none := by
  induction r with
  | nil => rfl
  | cons p t ih =>
    obtain ⟨k', s⟩ := p
    by_cases h : k' = k
    · simpa [eraseStream, h] using ih
    · simpa [eraseStream, lookupStream, h] using ih

theorem lookupStream_eraseStream_ne (r : Registry) (k k' : String) (h : k' ≠ k) :
    lookupStream (eraseStream r k) k' = lookupStream r k' := by
  induction r with
  | nil => rfl
  | cons p t ih =>
    obtain ⟨k0, s⟩ := p
    by_cases h0 : k0 = k
    · have he : eraseStream ((k0, s) :: t) k = eraseStream t k := by
        simp [eraseStream, h0]
      have hne : ¬ k0 = k' := by rw [h0]; exact fun hc => h hc.symm
      rw [he, ih]
      simp [lookupStream, hne]
    · have he : eraseStream ((k0, s) :: t) k = (k0, s) :: eraseStream t k := by
        simp [eraseStream, h0]
      rw [he]
      by_cases h1 : k0 = k'
      · simp [lookupStream, h1]
      · simp [lookupStream, h1, ih]

theorem lookupStream_insertStream_self (r : Registry) (k : String) (s : ManagedStream) :
    lookupStream (insertStream r k s) k = some s := by
  simp [insertStream, lookupStream]

theorem lookupStream_insertStream_ne (r : Registry) (k k' : String) (s : ManagedStream)
    (h : k' ≠ k) : lookupStream (insertStream r k s) k' = lookupStream r k' := by
  have : k ≠ k' := fun hc => h hc.symm
  simp [insertStream, lookupStream, this, lookupStream_eraseStream_ne r k k' h]

/-- The `Manager` (source line 160): the registry plus the configuration
read at construction.  `nextGen` is the allocation counter backing the
pointer-identity model.  `stopTimeout` is a duration in nanoseconds. -/
structure Manager where
  streams : Registry
  nextGen : Nat
  ffmpegBin : String
  stopTimeout : Int
  deriving DecidableEq, Repr

/-- `NewManager` (source line 169). -/
def NewManager (ffmpegBinary : String) (stopTimeout : Int) : Manager :=
  let bin := trimSpace ffmpegBinary
  { streams := []
    nextGen := 0
    ffmpegBin := if bin = "" then "ffmpeg" else bin
    stopTimeout := if stopTimeout ≤ 0 then 8000000000 else stopTimeout }

/-- `Manager.waitForExit` (source line 251), the reaper body that runs
once `cmd.Wait()` returns.  `s` is the instance the reaper was spawned
for, `waitErr` the result of `Wait()`, `now` the reaper's `m.now()`
reading.  Returns the new registry together with the final value of the
reaper's own instance (whose `done` channel it closes either way). -/
def waitForExit (streams : Registry) (streamID : String) (s : ManagedStream)
    (waitErr : Option String) (now : Nat) : Registry × ManagedStream :=
  match lookupStream streams streamID with
  | none => (streams, { s with doneClosed := true })
  | some current =>
    if current.gen = s.gen then
      let st : State :=
        if current.stopReq then .stopped
        else match waitErr with
          | some _ => .failed
          | none => .stopped
      let le : String :=
        if current.stopReq then current.lastErr
        else match waitErr with
          | some e => e
          | none => current.lastErr
      let s' : ManagedStream :=
        { current with updatedAt := now, stoppedAt := now, state := st,
                       lastErr := le, doneClosed := true }
      (insertStream streams streamID s', s')
    else (streams, { s with doneClosed := true })

/-- Result of `Manager.Start`: the manager afterwards, the returned
`(Status, error)` pair (the Go zero `Status{}` on early failure is
modelled as `none`), and how many times `cmd.Start()` was invoked. -/
structure StartResult where
  mgr : Manager
  status : Option Status
  err : Option String
  launches : Nat
  deriving DecidableEq, Repr

/-- `Manager.Start` (source line 188).  Oracles: `mkdirErr` is the
outcome of `os.MkdirAll`, `startErr` of `cmd.Start()`, `pid` is
`cmd.PID()` after a successful launch; `now1`, `now2` are the successive
`m.now()` readings. -/
def startStream (m : Manager) (streamID : String) (cfg : HLSConfig)
    (mkdirErr : Option String) (startErr : Option String) (pid : Int)
    (now1 now2 : Nat) : StartResult :=
  let streamID := trimSpace streamID
  if streamID = "" then ⟨m, none, some "stream id is required", 0⟩
  else
    match normalizeConfig cfg with
    | .error e => ⟨m, none, some e, 0⟩
    | .ok norm =>
      match mkdirErr with
      | some e => ⟨m, none, some ("create output dir: " ++ e), 0⟩
      | none =>
        let args := buildHLSArgs norm
        let playlistPath := filepathJoin norm.OutputDir norm.PlaylistName
        if (lookupStream m.streams streamID).elim false (·.isActive) then
          ⟨m, none, some "stream already running", 0⟩
        else
          let s : ManagedStream :=
            { id := streamID, state := .starting, cfg := norm, pid := 0,
              lastErr := "", startedAt := now1, updatedAt := now1,
              stoppedAt := 0, playlistPath := playlistPath,
              binary := m.ffmpegBin, args := args, gen := m.nextGen,
              doneClosed := false, stopReq := false }
          let m1 : Manager :=
            { m with streams := insertStream m.streams streamID s,
                     nextGen := m.nextGen + 1 }
          match startErr with
          | some e =>
            let s' := { s with state := .failed, lastErr := e,
                               updatedAt := now2, stoppedAt := now2,
                               doneClosed := true }
            ⟨{ m1 with streams := insertStream m1.streams streamID s' },
              some (toStatus s'), some ("start ffmpeg: " ++ e), 1⟩
          | none =>
            let s' := { s with state := .running, pid := pid, updatedAt := now2 }
            ⟨{ m1 with streams := insertStream m1.streams streamID s' },
              some (toStatus s'), none, 1⟩

/-- Which event wins one `select` race inside `waitDone` (source line
487): the stream's completion channel, the caller's context, or the stop
timer. -/
inductive WaitOutcome where
  | done
  | ctxCancelled
  | timedOut
  deriving DecidableEq, Repr

/-- `waitDone` (source line 487) reports only whether the completion
channel won the race; a cancelled context and an expired timer are
indistinguishable in its result. -/
def waitDone (o : WaitOutcome) : Bool :=
  match o with
  | .done => true
  | _ => false

/-- Result of `Manager.Stop`: the manager afterwards, the returned error,
and how many `Signal`/`Kill` calls this `Stop` performed itself. -/
structure StopResult where
  mgr : Manager
  err : Option String
  signals : Nat
  kills : Nat
  deriving DecidableEq, Repr

/-- `Manager.Stop` (source line 278).  `o1`, `o2` are the winners of the
two `waitDone` races; `waitErr` and `reapNow` feed the reaper.  The
channel `done` is closed by `waitForExit` (under the lock, after its
registry mutation) before anyone can observe it closed, so the
linearization of "`waitDone` saw `done` closed" is `waitForExit` having
run: the model applies `waitForExit` at that observation point.  On the
timeout path the reaper has not yet run and the entry is left in
`stopping`. -/
def stopStream (m : Manager) (streamID : String) (now : Nat)
    (o1 o2 : WaitOutcome) (waitErr : Option String) (reapNow : Nat) : StopResult :=
  let streamID := trimSpace streamID
  if streamID = "" then ⟨m, some "stream id is required", 0, 0⟩
  else
    match lookupStream m.streams streamID with
    | none => ⟨m, some "stream not found", 0, 0⟩
    | some s =>
      if s.isActive = false then ⟨m, none, 0, 0⟩
      else
        let s1 := { s with stopReq := true, state := .stopping, updatedAt := now }
        let m1 := { m with streams := insertStream m.streams streamID s1 }
        -- cmd.Signal(os.Interrupt), best effort
        if waitDone o1 then
          ⟨{ m1 with streams := (waitForExit m1.streams streamID s1 waitErr reapNow).1 },
            none, 1, 0⟩
        else if waitDone o2 then
          -- cmd.Kill(), best effort, then the second wait succeeded
          ⟨{ m1 with streams := (waitForExit m1.streams streamID s1 waitErr reapNow).1 },
            none, 1, 1⟩
        else ⟨m1, some "timed out stopping stream", 1, 1⟩

/-- Result of `Manager.Update`. -/
structure UpdateResult where
  mgr : Manager
  status : Option Status
  err : Option String
  launches : Nat
  deriving DecidableEq, Repr

/-- `Manager.Update` (source line 319): check presence, then
`Stop` followed by `Start` under the same identity. -/
def updateStream (m : Manager) (streamID : String) (cfg : HLSConfig)
    (stopNow : Nat) (o1 o2 : WaitOutcome) (waitErr : Option String) (reapNow : Nat)
    (mkdirErr : Option String) (startErr : Option String) (pid : Int)
    (now1 now2 : Nat) : UpdateResult :=
  let tid := trimSpace streamID
  if tid = "" then ⟨m, none, some "stream id is required", 0⟩
  else
    match lookupStream m.streams tid with
    | none => ⟨m, none, some "stream not found", 0⟩
    | some _ =>
      let r := stopStream m streamID stopNow o1 o2 waitErr reapNow
      match r.err with
      | some e => ⟨r.mgr, none, some e, 0⟩
      | none =>
        let sr := startStream r.mgr streamID cfg mkdirErr startErr pid now1 now2
        ⟨sr.mgr, sr.status, sr.err, sr.launches⟩

/-- `Manager.Status` (source line 348); the Go `(Status{}, false)` pair is
modelled as `none`. -/
def statusOf (m : Manager) (streamID : String) : Option Status :=
  let streamID := trimSpace streamID
  if streamID = "" then none
  else (lookupStream m.streams streamID).map toStatus

/-- Result of `Manager.Remove`. -/
structure RemoveResult where
  mgr : Manager
  err : Option String
  deriving DecidableEq, Repr

/-- `Manager.Remove` (source line 398). -/
def removeStream (m : Manager) (streamID : String) : RemoveResult :=
  let streamID := trimSpace streamID
  if streamID = "" then ⟨m, some "stream id is required"⟩
  else
    match lookupStream m.streams streamID with
    | none => ⟨m, some "stream not found"⟩
    | some s =>
      if s.isActive then ⟨m, some "cannot remove active stream"⟩
      else ⟨{ m with streams := eraseStream m.streams streamID }, none⟩

/-- A canonical configuration used for concrete witnesses. -/
def sampleCfg : HLSConfig :=
  { InputPath := "in.mp4", OutputDir := "/tmp/x", PlaylistName := "index.m3u8",
    SegmentPattern := "segment_%06d.ts", SegmentDurationSeconds := 6,
    ListSize := 6, LoopInput := false, DeleteSegments := false,
    VideoCodec := "copy", AudioCodec := "copy", ExtraArgs := [] }

/-- A running stream used for concrete witnesses. -/
def sampleStream : ManagedStream :=
  { id := "live", state := .running, cfg := sampleCfg, pid := 101,
    lastErr := "", startedAt := 1, updatedAt := 2, stoppedAt := 0,
    playlistPath := "/tmp/x/index.m3u8", binary := "ffmpeg",
    args := buildHLSArgs sampleCfg, gen := 0, doneClosed := false,
    stopReq := false }

/-- A terminal (stopped) stream used for concrete witnesses. -/
def sampleStopped : ManagedStream :=
  { sampleStream with id := "old", state := .stopped, stoppedAt := 5 }

/-- A manager holding one running and one stopped stream. -/
def sampleMgr : Manager :=
  { streams := [("live", sampleStream), ("old", sampleStopped)],
    nextGen := 2, ffmpegBin := "ffmpeg", stopTimeout := 8000000000 }

theorem trimSpace_index : trimSpace "index.m3u8" = "index.m3u8" := by decide

theorem trimSpace_pattern : trimSpace "segment_%06d.ts" = "segment_%06d.ts" := by decide

theorem trimSpace_copy : trimSpace "copy" = "copy" := by decide

/-- `true` iff `normalizeConfig` rejected the configuration. -/
def isErrorResult : Except String HLSConfig → Bool
  | .error _ => true
  | .ok _ => false

/-- A raw configuration with an untrimmed input path, used as the C6
witness input. -/
def rawCfg6 : HLSConfig :=
  { InputPath := " in.mp4 ", OutputDir := "/tmp/x", PlaylistName := "",
    SegmentPattern := "", SegmentDurationSeconds := 0, ListSize := 0,
    LoopInput := false, DeleteSegments := false, VideoCodec := "",
    AudioCodec := "", ExtraArgs := [] }

/-- The raw configuration of C7's test vector (only input, output
directory, segment duration and list size supplied). -/
def rawCfg7 : HLSConfig :=
  { InputPath := "in.mp4", OutputDir := "/tmp/x", PlaylistName := "",
    SegmentPattern := "", SegmentDurationSeconds := 6, ListSize := 6,
    LoopInput := false, DeleteSegments := false, VideoCodec := "",
    AudioCodec := "", ExtraArgs := [] }

/-- Re-normalizing a string field that was trimmed-or-defaulted is the
identity, provided the default is itself trim-stable and non-empty. -/
theorem trimDefault_stable (v d : String) (hd : trimSpace d = d) (hdne : d ≠ "") :
    (if trimSpace (if trimSpace v = "" then d else trimSpace v) = "" then d
     else trimSpace (if trimSpace v = "" then d else trimSpace v)) =
    (if trimSpace v = "" then d else trimSpace v) := by
  by_cases hv : trimSpace v = ""
  · simp [hv, hd, hdne]
  · simp [hv, trimSpace_idem]

/-- Re-applying the segment-duration default is the identity. -/
theorem durDefault_stable (n : Int) :
    (if (if n ≤ 0 then (6 : Int) else n) ≤ 0 then (6 : Int)
     else if n ≤ 0 then (6 : Int) else n) =
    (if n ≤ 0 then (6 : Int) else n) := by
  by_cases h : n ≤ 0 <;> simp [h]

/-- Re-applying the list-size default is the identity. -/
theorem listDefault_stable (n : Int) :
    (if (if n = 0 then (6 : Int) else n) = 0 then (6 : Int)
     else if n = 0 then (6 : Int) else n) =
    (if n = 0 then (6 : Int) else n) := by
  by_cases h : n = 0 <;> simp [h]

/-- C6: `normalizeConfig` is idempotent — for every raw configuration it
accepts, re-normalizing the canonical result returns it unchanged — and
every accepted result has a non-empty trimmed input path and a non-empty
trimmed output directory. -/
theorem normalizeConfig_idem (c norm : HLSConfig)
    (h : normalizeConfig c = .ok norm) :
    normalizeConfig norm = .ok norm ∧
    trimSpace norm.InputPath = norm.InputPath ∧ norm.InputPath ≠ "" ∧
    trimSpace norm.OutputDir = norm.OutputDir ∧ norm.OutputDir ≠ "" := by
  simp only [normalizeConfig] at h
  by_cases h1 : trimSpace c.InputPath = ""
  · rw [if_pos h1] at h; exact absurd h (by simp)
  rw [if_neg h1] at h
  by_cases h2 : trimSpace c.OutputDir = ""
  · rw [if_pos h2] at h; exact absurd h (by simp)
  rw [if_neg h2] at h
  by_cases h3 : c.ListSize < 0
  · rw [if_pos h3] at h; exact absurd h (by simp)
  rw [if_neg h3] at h
  injection h with h
  subst h
  have h4 : ¬ ((if c.ListSize = 0 then (6 : Int) else c.ListSize) < 0) := by
    split <;> omega
  refine ⟨?_, ?_, ?_, ?_, ?_⟩
  · simp only [normalizeConfig, trimSpace_idem]
    rw [if_neg h1, if_neg h2, if_neg h4]
    rw [trimDefault_stable c.PlaylistName "index.m3u8" trimSpace_index
          (by decide),
        trimDefault_stable c.SegmentPattern "segment_%06d.ts"
          trimSpace_pattern (by decide),
        trimDefault_stable c.VideoCodec "copy" trimSpace_copy (by decide),
        trimDefault_stable c.AudioCodec "copy" trimSpace_copy (by decide),
        durDefault_stable, listDefault_stable]
  · simp [trimSpace_idem]
  · simpa using h1
  · simp [trimSpace_idem]
  · simpa using h2

/-- Closed instance for C6: a raw configuration with untrimmed fields
normalizes to `sampleCfg`, which re-normalizes to itself. -/
theorem normalizeConfig_idem_witness :
    normalizeConfig rawCfg6 = .ok sampleCfg ∧
    normalizeConfig sampleCfg = .ok sampleCfg ∧
    sampleCfg.InputPath ≠ "" ∧ sampleCfg.OutputDir ≠ "" := by
  have h0 : normalizeConfig rawCfg6 = .ok sampleCfg := rfl
  have h := normalizeConfig_idem rawCfg6 sampleCfg h0
  exact ⟨h0, h.1, h.2.2.1, h.2.2.2.2⟩

/-- C10: `normalizeConfig` rejects exactly the configurations whose
trimmed input path is empty, whose trimmed output directory is empty, or
whose `ListSize` is negative; a non-positive `SegmentDurationSeconds`
(including negative values) is never rejected but silently replaced by
the default 6. -/
theorem normalizeConfig_error_iff (c : HLSConfig) :
    (isErrorResult (normalizeConfig c) = true ↔
      (trimSpace c.InputPath = "" ∨ trimSpace c.OutputDir = "" ∨
        c.ListSize < 0)) ∧
    (∀ norm, normalizeConfig c = .ok norm → c.SegmentDurationSeconds ≤ 0 →
      norm.SegmentDurationSeconds = 6) := by
  constructor
  · simp only [normalizeConfig]
    by_cases h1 : trimSpace c.InputPath = ""
    · simp [h1, isErrorResult]
    rw [if_neg h1]
    by_cases h2 : trimSpace c.OutputDir = ""
    · simp [h1, h2, isErrorResult]
    rw [if_neg h2]
    by_cases h3 : c.ListSize < 0
    · simp [h1, h2, h3, isErrorResult]
    · simp [h1, h2, h3, isErrorResult]
  · intro norm h hdur
    simp only [normalizeConfig] at h
    by_cases h1 : trimSpace c.InputPath = ""
    · rw [if_pos h1] at h; exact absurd h (by simp)
    rw [if_neg h1] at h
    by_cases h2 : trimSpace c.OutputDir = ""
    · rw [if_pos h2] at h; exact absurd h (by simp)
    rw [if_neg h2] at h
    by_cases h3 : c.ListSize < 0
    · rw [if_pos h3] at h; exact absurd h (by simp)
    rw [if_neg h3] at h
    injection h with h
    subst h
    show (if c.SegmentDurationSeconds ≤ 0 then (6 : Int)
      else c.SegmentDurationSeconds) = 6
    rw [if_pos hdur]

/-- Closed instance for C10: a configuration with a negative segment
duration is accepted and the duration is replaced by 6. -/
theorem normalizeConfig_error_iff_witness :
    isErrorResult (normalizeConfig { rawCfg6 with SegmentDurationSeconds := -3 })
      = false ∧
    ∃ norm,
      normalizeConfig { rawCfg6 with SegmentDurationSeconds := -3 } = .ok norm ∧
      norm.SegmentDurationSeconds = 6 := by
  have h := normalizeConfig_error_iff { rawCfg6 with SegmentDurationSeconds := -3 }
  constructor
  · have h1 := h.1
    have : ¬ (trimSpace ({ rawCfg6 with SegmentDurationSeconds := -3 } :
        HLSConfig).InputPath = "" ∨
        trimSpace ({ rawCfg6 with SegmentDurationSeconds := -3 } :
          HLSConfig).OutputDir = "" ∨
        ({ rawCfg6 with SegmentDurationSeconds := -3 } :
          HLSConfig).ListSize < 0) := by decide
    cases hb : isErrorResult
        (normalizeConfig { rawCfg6 with SegmentDurationSeconds := -3 })
    · rfl
    · exact absurd (h1.mp hb) this
  · exact ⟨_, rfl, h.2 _ rfl (by decide)⟩

/-- C7: `buildHLSArgs` is a pure function of the canonical configuration;
on the normalization of `rawCfg7` (input `in.mp4`, output dir `/tmp/x`,
segment duration 6, list size 6) it emits the consecutive pairs
`-hls_time 6` and `-hls_list_size 6`, and its final element is the
playlist path `/tmp/x/index.m3u8`. -/
theorem buildHLSArgs_concrete :
    normalizeConfig rawCfg7 = .ok sampleCfg ∧
    (∃ l r, buildHLSArgs sampleCfg = l ++ ["-hls_time", "6"] ++ r) ∧
    (∃ l r, buildHLSArgs sampleCfg = l ++ ["-hls_list_size", "6"] ++ r) ∧
    (buildHLSArgs sampleCfg).getLast? = some "/tmp/x/index.m3u8" := by
  have hargs : buildHLSArgs sampleCfg =
      ["-hide_banner", "-nostdin", "-loglevel", "error",
       "-i", "in.mp4", "-c:v", "copy", "-c:a", "copy", "-f", "hls",
       "-hls_time", "6", "-hls_list_size", "6",
       "-hls_flags", "independent_segments",
       "-hls_segment_filename", "/tmp/x/segment_%06d.ts",
       "/tmp/x/index.m3u8"] := by decide
  refine ⟨rfl, ?_, ?_, ?_⟩
  · exact ⟨["-hide_banner", "-nostdin", "-loglevel", "error",
      "-i", "in.mp4", "-c:v", "copy", "-c:a", "copy", "-f", "hls"],
      ["-hls_list_size", "6", "-hls_flags", "independent_segments",
       "-hls_segment_filename", "/tmp/x/segment_%06d.ts",
       "/tmp/x/index.m3u8"], by rw [hargs]; rfl⟩
  · exact ⟨["-hide_banner", "-nostdin", "-loglevel", "error",
      "-i", "in.mp4", "-c:v", "copy", "-c:a", "copy", "-f", "hls",
      "-hls_time", "6"],
      ["-hls_flags", "independent_segments",
       "-hls_segment_filename", "/tmp/x/segment_%06d.ts",
       "/tmp/x/index.m3u8"], by rw [hargs]; rfl⟩
  · rw [hargs]; rfl

theorem waitDone_false (o : WaitOutcome) (h : o ≠ WaitOutcome.done) :
    waitDone o = false := by
  cases o with
  | done => exact absurd rfl h
  | ctxCancelled => rfl
  | timedOut => rfl

/-- C1: the reaper bound to instance `s` of stream `k`, on observing the
process exit: if the registry entry for `k` is absent or a different
instance, it closes only its own completion channel and leaves the
registry untouched; otherwise it stamps the update/stop timestamps, sets
the state to Stopped when a stop was requested or the exit was clean,
sets it to Failed and records the exit error text when the exit errored
without a stop request, and closes the completion channel. -/
theorem waitForExit_reaper_spec (r : Registry) (id : String)
    (s : ManagedStream) (waitErr : Option String) (now : Nat) :
    (lookupStream r id = none →
      waitForExit r id s waitErr now = (r, { s with doneClosed := true })) ∧
    (∀ c, lookupStream r id = some c → c.gen ≠ s.gen →
      waitForExit r id s waitErr now = (r, { s with doneClosed := true })) ∧
    (∀ c, lookupStream r id = some c → c.gen = s.gen →
      ∃ s', waitForExit r id s waitErr now = (insertStream r id s', s') ∧
        s'.updatedAt = now ∧ s'.stoppedAt = now ∧ s'.doneClosed = true ∧
        (c.stopReq = true →
          s'.state = State.stopped ∧ s'.lastErr = c.lastErr) ∧
        (c.stopReq = false → waitErr = none →
          s'.state = State.stopped ∧ s'.lastErr = c.lastErr) ∧
        (∀ e, c.stopReq = false → waitErr = some e →
          s'.state = State.failed ∧ s'.lastErr = e) ∧
        s'.id = c.id ∧ s'.cfg = c.cfg ∧ s'.pid = c.pid ∧
        s'.startedAt = c.startedAt ∧ s'.gen = c.gen ∧
        s'.stopReq = c.stopReq ∧
        lookupStream (insertStream r id s') id = some s' ∧
        (∀ k, k ≠ id →
          lookupStream (insertStream r id s') k = lookupStream r k)) := by
  refine ⟨?_, ?_, ?_⟩
  · intro h; simp [waitForExit, h]
  · intro c hc hg; simp [waitForExit, hc, hg]
  · intro c hc hg
    simp only [waitForExit, hc]
    rw [if_pos hg]
    refine ⟨_, rfl, rfl, rfl, rfl, ?_, ?_, ?_, rfl, rfl, rfl, rfl, rfl, rfl,
      lookupStream_insertStream_self r id _, ?_⟩
    · intro h; simp [h]
    · intro h h2; simp [h, h2]
    · intro e h h2; simp [h, h2]
    · intro k hk; exact lookupStream_insertStream_ne r id k _ hk

/-- Closed instance for C1: the reaper for the registered instance of
`live` records an errored exit as Failed with the error text and closes
the completion channel. -/
theorem waitForExit_reaper_spec_witness :
    (waitForExit sampleMgr.streams "live" sampleStream
      (some "exit status 1") 9).2.state = State.failed ∧
    (waitForExit sampleMgr.streams "live" sampleStream
      (some "exit status 1") 9).2.lastErr = "exit status 1" ∧
    (waitForExit sampleMgr.streams "live" sampleStream
      (some "exit status 1") 9).2.doneClosed = true := by
  have h := (waitForExit_reaper_spec sampleMgr.streams "live" sampleStream
    (some "exit status 1") 9).2.2 sampleStream rfl rfl
  obtain ⟨s', heq, -, -, hdone, -, -, h3, -⟩ := h
  have h3' := h3 "exit status 1" rfl rfl
  rw [heq]
  exact ⟨h3'.1, h3'.2, hdone⟩

/-- C2 (counterexample): with the caller's context cancelled before the
completion channel closes (both waits lose to the cancellation), `Stop`
on the active stream `live` does not report the cancellation: it returns
the generic "timed out stopping stream" error, and it has already
performed the force-kill itself (one `Kill` call) rather than leaving it
to the reaper. -/
theorem stop_cancel_counterexample :
    (stopStream sampleMgr "live" 3 WaitOutcome.ctxCancelled
      WaitOutcome.ctxCancelled none 9).err =
        some "timed out stopping stream" ∧
    (stopStream sampleMgr "live" 3 WaitOutcome.ctxCancelled
      WaitOutcome.ctxCancelled none 9).kills = 1 := by
  constructor <;> rfl

/-- C2 (amended): whenever neither `waitDone` race is won by the
completion channel — in particular when the caller's cancellation fires
first, both waits return immediately — `Stop` marks the stream stopping,
performs one signal and one kill itself, returns the generic
"timed out stopping stream" error (it cannot distinguish cancellation
from timer expiry), and leaves the stopping-marked entry for the reaper
to finalize. -/
theorem stop_cancel_behavior (m : Manager) (id : String) (s : ManagedStream)
    (now : Nat) (o1 o2 : WaitOutcome) (waitErr : Option String) (reapNow : Nat)
    (hid : trimSpace id = id) (hne : id ≠ "")
    (hs : lookupStream m.streams id = some s) (hact : s.isActive = true)
    (h1 : o1 ≠ WaitOutcome.done) (h2 : o2 ≠ WaitOutcome.done) :
    stopStream m id now o1 o2 waitErr reapNow =
      ⟨{ m with
           streams := insertStream m.streams id
             { s with stopReq := true, state := State.stopping,
                      updatedAt := now } },
        some "timed out stopping stream", 1, 1⟩ := by
  simp [stopStream, hid, hne, hs, hact, waitDone_false o1 h1,
    waitDone_false o2 h2]

/-- Closed instance for C2's amended theorem. -/
theorem stop_cancel_behavior_witness :
    stopStream sampleMgr "live" 3 WaitOutcome.ctxCancelled
        WaitOutcome.timedOut none 9 =
      ⟨{ sampleMgr with
           streams := insertStream sampleMgr.streams "live"
             { sampleStream with stopReq := true, state := State.stopping,
                                 updatedAt := 3 } },
        some "timed out stopping stream", 1, 1⟩ :=
  stop_cancel_behavior sampleMgr "live" sampleStream 3
    WaitOutcome.ctxCancelled WaitOutcome.timedOut none 9 rfl (by decide)
    rfl rfl (by decide) (by decide)

/-- C3: `Start` on an identity whose registry entry is active fails with
the "stream already running" conflict error, launches nothing, and
returns the manager — registry, every entry, and the existing stream's
record — completely unchanged. -/
theorem start_conflict_leaves_registry (m : Manager) (id : String)
    (cfg norm : HLSConfig) (s : ManagedStream) (startErr : Option String)
    (pid : Int) (now1 now2 : Nat)
    (hid : trimSpace id = id) (hne : id ≠ "")
    (hnorm : normalizeConfig cfg = .ok norm)
    (hs : lookupStream m.streams id = some s) (hact : s.isActive = true) :
    startStream m id cfg none startErr pid now1 now2 =
      ⟨m, none, some "stream already running", 0⟩ := by
  simp [startStream, hid, hne, hnorm, hs, hact]

/-- Closed instance for C3: a second `Start` of the running `live`. -/
theorem start_conflict_leaves_registry_witness :
    startStream sampleMgr "live" sampleCfg none none 7 3 4 =
      ⟨sampleMgr, none, some "stream already running", 0⟩ :=
  start_conflict_leaves_registry sampleMgr "live" sampleCfg sampleCfg
    sampleStream none 7 3 4 rfl (by decide) rfl rfl rfl

/-- C4: when the process launch fails during `Start` (the `cmd.Start()`
oracle returns an error `e`), the freshly inserted stream transitions to
Failed with the non-empty error text recorded and the stop timestamp
stamped, its completion channel is closed, `Start` returns that failure
status together with the wrapped error, and the record stays in the
registry, so `Status(id)` finds it Failed with a non-empty last error. -/
theorem start_launch_failure_marks_failed (m : Manager) (id : String)
    (cfg norm : HLSConfig) (e : String) (pid : Int) (now1 now2 : Nat)
    (hid : trimSpace id = id) (hne : id ≠ "")
    (hnorm : normalizeConfig cfg = .ok norm)
    (hnoact : ∀ s0, lookupStream m.streams id = some s0 →
      s0.isActive = false)
    (hee : e ≠ "") :
    ∃ s',
      lookupStream (startStream m id cfg none (some e) pid now1 now2).mgr.streams
        id = some s' ∧
      s'.state = State.failed ∧ s'.lastErr = e ∧ s'.lastErr ≠ "" ∧
      s'.stoppedAt = now2 ∧ s'.updatedAt = now2 ∧ s'.doneClosed = true ∧
      (startStream m id cfg none (some e) pid now1 now2).status =
        some (toStatus s') ∧
      (startStream m id cfg none (some e) pid now1 now2).err =
        some ("start ffmpeg: " ++ e) ∧
      statusOf (startStream m id cfg none (some e) pid now1 now2).mgr id =
        some (toStatus s') ∧
      (toStatus s').State = State.failed ∧ (toStatus s').LastError ≠ "" := by
  have hcond : (lookupStream m.streams id).elim false
      (fun s0 => s0.isActive) = false := by
    cases hcase : lookupStream m.streams id with
    | none => rfl
    | some s0 => simpa using hnoact s0 hcase
  simp only [startStream, hid]
  rw [if_neg hne, hnorm]
  simp only [hcond, Bool.false_eq_true, if_false]
  refine ⟨_, lookupStream_insertStream_self _ id _, rfl, rfl, hee, rfl, rfl,
    rfl, rfl, trivial, ?_, rfl, hee⟩
  simp [statusOf, hid, hne, lookupStream_insertStream_self]

/-- Closed instance for C4: launching `broken` on an empty manager with a
failing `cmd.Start()` yields the wrapped error and a Failed status with
the error text. -/
theorem start_launch_failure_witness :
    (startStream (NewManager "ffmpeg" 0) "broken" sampleCfg none
      (some "exec failed") 0 1 2).err =
        some ("start ffmpeg: " ++ "exec failed") ∧
    (statusOf (startStream (NewManager "ffmpeg" 0) "broken" sampleCfg none
      (some "exec failed") 0 1 2).mgr "broken").map Status.State =
        some State.failed ∧
    (statusOf (startStream (NewManager "ffmpeg" 0) "broken" sampleCfg none
      (some "exec failed") 0 1 2).mgr "broken").map Status.LastError =
        some "exec failed" := by
  obtain ⟨s', hlook, hstate, hlerr, -, -, -, -, -, herr, hstat, -, -⟩ :=
    start_launch_failure_marks_failed (NewManager "ffmpeg" 0) "broken"
      sampleCfg sampleCfg "exec failed" 0 1 2 rfl (by decide) rfl
      (by intro s0 h; simp [NewManager, lookupStream] at h) (by decide)
  refine ⟨herr, ?_, ?_⟩ <;> rw [hstat] <;> simp [toStatus, hstate, hlerr]

/-- C8: `Remove` fails with "stream not found" when the identity is
absent; fails and deletes nothing when the entry is active; and when the
entry is terminal it deletes the registry entry and succeeds, after which
`Status` reports not-found. -/
theorem remove_spec (m : Manager) (id : String)
    (hid : trimSpace id = id) (hne : id ≠ "") :
    (lookupStream m.streams id = none →
      removeStream m id = ⟨m, some "stream not found"⟩) ∧
    (∀ s, lookupStream m.streams id = some s → s.isActive = true →
      removeStream m id = ⟨m, some "cannot remove active stream"⟩) ∧
    (∀ s, lookupStream m.streams id = some s → s.isActive = false →
      removeStream m id =
        ⟨{ m with streams := eraseStream m.streams id }, none⟩ ∧
      statusOf (removeStream m id).mgr id = none) := by
  refine ⟨?_, ?_, ?_⟩
  · intro h; simp [removeStream, hid, hne, h]
  · intro s hs hact; simp [removeStream, hid, hne, hs, hact]
  · intro s hs hact
    have hrm : removeStream m id =
        ⟨{ m with streams := eraseStream m.streams id }, none⟩ := by
      simp [removeStream, hid, hne, hs, hact]
    refine ⟨hrm, ?_⟩
    rw [hrm]
    simp [statusOf, hid, hne, lookupStream_eraseStream_self]

/-- Closed instance for C8: removing the terminal stream `old` succeeds
and `Status` then reports not-found; removing the active `live` fails. -/
theorem remove_spec_witness :
    removeStream sampleMgr "old" =
      ⟨{ sampleMgr with streams := eraseStream sampleMgr.streams "old" },
        none⟩ ∧
    statusOf (removeStream sampleMgr "old").mgr "old" = none ∧
    removeStream sampleMgr "live" =
      ⟨sampleMgr, some "cannot remove active stream"⟩ := by
  have h1 := (remove_spec sampleMgr "old" rfl (by decide)).2.2 sampleStopped
    rfl rfl
  have h2 := (remove_spec sampleMgr "live" rfl (by decide)).2.1 sampleStream
    rfl rfl
  exact ⟨h1.1, h1.2, h2⟩

theorem startStream_trim (m : Manager) (id : String) (cfg : HLSConfig)
    (mk st : Option String) (p : Int) (n1 n2 : Nat) :
    startStream m id cfg mk st p n1 n2 =
      startStream m (trimSpace id) cfg mk st p n1 n2 := by
  simp only [startStream, trimSpace_idem]

theorem stopStream_trim (m : Manager) (id : String) (sn : Nat)
    (o1 o2 : WaitOutcome) (w : Option String) (rn : Nat) :
    stopStream m id sn o1 o2 w rn =
      stopStream m (trimSpace id) sn o1 o2 w rn := by
  simp only [stopStream, trimSpace_idem]

theorem statusOf_trim (m : Manager) (id : String) :
    statusOf m id = statusOf m (trimSpace id) := by
  simp only [statusOf, trimSpace_idem]

theorem removeStream_trim (m : Manager) (id : String) :
    removeStream m id = removeStream m (trimSpace id) := by
  simp only [removeStream, trimSpace_idem]

theorem updateStream_trim (m : Manager) (id : String) (cfg : HLSConfig)
    (sn : Nat) (o1 o2 : WaitOutcome) (w : Option String) (rn : Nat)
    (mk st : Option String) (p : Int) (n1 n2 : Nat) :
    updateStream m id cfg sn o1 o2 w rn mk st p n1 n2 =
      updateStream m (trimSpace id) cfg sn o1 o2 w rn mk st p n1 n2 := by
  simp only [updateStream, trimSpace_idem]
  rw [← stopStream_trim, ← startStream_trim]

/-- C9: every identity-taking operation trims the caller-supplied id
before lookup or insertion, so ids differing only in surrounding
whitespace denote the same stream; a whitespace-only id is rejected with
an error by Start, Stop, Update and Remove, while Status reports
not-found rather than an error. -/
theorem ops_trim_ids (m : Manager) (id : String) (cfg : HLSConfig)
    (mk st : Option String) (p : Int) (n1 n2 sn : Nat)
    (o1 o2 : WaitOutcome) (w : Option String) (rn : Nat) :
    startStream m id cfg mk st p n1 n2 =
      startStream m (trimSpace id) cfg mk st p n1 n2 ∧
    stopStream m id sn o1 o2 w rn =
      stopStream m (trimSpace id) sn o1 o2 w rn ∧
    updateStream m id cfg sn o1 o2 w rn mk st p n1 n2 =
      updateStream m (trimSpace id) cfg sn o1 o2 w rn mk st p n1 n2 ∧
    statusOf m id = statusOf m (trimSpace id) ∧
    removeStream m id = removeStream m (trimSpace id) ∧
    (trimSpace id = "" →
      (startStream m id cfg mk st p n1 n2).err =
        some "stream id is required" ∧
      (startStream m id cfg mk st p n1 n2).mgr = m ∧
      (stopStream m id sn o1 o2 w rn).err = some "stream id is required" ∧
      (stopStream m id sn o1 o2 w rn).mgr = m ∧
      (updateStream m id cfg sn o1 o2 w rn mk st p n1 n2).err =
        some "stream id is required" ∧
      (updateStream m id cfg sn o1 o2 w rn mk st p n1 n2).mgr = m ∧
      (removeStream m id).err = some "stream id is required" ∧
      (removeStream m id).mgr = m ∧
      statusOf m id = none) := by
  refine ⟨startStream_trim m id cfg mk st p n1 n2,
    stopStream_trim m id sn o1 o2 w rn,
    updateStream_trim m id cfg sn o1 o2 w rn mk st p n1 n2,
    statusOf_trim m id, removeStream_trim m id, ?_⟩
  intro h
  refine ⟨?_, ?_, ?_, ?_, ?_, ?_, ?_, ?_, ?_⟩ <;>
    simp [startStream, stopStream, updateStream, removeStream, statusOf, h]

/-- Closed instance for C9: the whitespace-only id `" "` is rejected by
Stop and Remove and reported not-found by Status, and `" live "` denotes
the same stream as `"live"` for Status. -/
theorem ops_trim_ids_witness :
    (stopStream sampleMgr " " 0 WaitOutcome.done WaitOutcome.done none 0).err =
      some "stream id is required" ∧
    (removeStream sampleMgr " ").err = some "stream id is required" ∧
    statusOf sampleMgr " " = none ∧
    statusOf sampleMgr " live " = statusOf sampleMgr "live" := by
  have h := ops_trim_ids sampleMgr " " sampleCfg none none 0 0 0 0
    WaitOutcome.done WaitOutcome.done none 0
  have h6 := h.2.2.2.2.2 (by decide)
  have h2 := ops_trim_ids sampleMgr " live " sampleCfg none none 0 0 0 0
    WaitOutcome.done WaitOutcome.done none 0
  refine ⟨h6.2.2.1, h6.2.2.2.2.2.2.1, h6.2.2.2.2.2.2.2.2, ?_⟩
  have := h2.2.2.2.1
  simpa using this

/-- The argument vector always contains the consecutive pair
`-i <input>`. -/
theorem buildHLSArgs_has_input (cfg : HLSConfig) :
    ∃ pre post, buildHLSArgs cfg = pre ++ ["-i", cfg.InputPath] ++ post := by
  refine ⟨["-hide_banner", "-nostdin", "-loglevel", "error"] ++
    (if cfg.LoopInput then ["-stream_loop", "-1"] else []),
    ["-c:v", cfg.VideoCodec, "-c:a", cfg.AudioCodec, "-f", "hls",
     "-hls_time", strconvItoa cfg.SegmentDurationSeconds,
     "-hls_list_size", strconvItoa cfg.ListSize] ++
    ["-hls_flags", if cfg.DeleteSegments
      then "independent_segments+delete_segments"
      else "independent_segments"] ++
    ["-hls_segment_filename",
      filepathJoin cfg.OutputDir cfg.SegmentPattern] ++
    cfg.ExtraArgs ++ [filepathJoin cfg.OutputDir cfg.PlaylistName], ?_⟩
  simp [buildHLSArgs]

/-- A successful `Stop` leaves the entry (if still present) inactive:
either the stream was already terminal, or the completion channel was
observed closed, which linearizes after the reaper's transition to
Stopped/Failed. -/
theorem stopStream_success_inactive (m : Manager) (id : String)
    (s : ManagedStream) (sn : Nat) (o1 o2 : WaitOutcome) (w : Option String)
    (rn : Nat) (hid : trimSpace id = id) (hne : id ≠ "")
    (hs : lookupStream m.streams id = some s)
    (herr : (stopStream m id sn o1 o2 w rn).err = none) :
    ∃ s', lookupStream (stopStream m id sn o1 o2 w rn).mgr.streams id =
      some s' ∧ s'.isActive = false := by
  by_cases hact : s.isActive = true
  · by_cases h1 : o1 = WaitOutcome.done
    · subst h1
      refine ⟨{ s with
          stopReq := true, state := State.stopped,
          updatedAt := rn, stoppedAt := rn, doneClosed := true }, ?_, rfl⟩
      simp [stopStream, hid, hne, hs, hact, waitDone, waitForExit,
        lookupStream_insertStream_self]
    · by_cases h2 : o2 = WaitOutcome.done
      · subst h2
        refine ⟨{ s with
            stopReq := true, state := State.stopped,
            updatedAt := rn, stoppedAt := rn, doneClosed := true }, ?_, rfl⟩
        simp [stopStream, hid, hne, hs, hact, waitDone_false o1 h1,
          waitDone, waitForExit, lookupStream_insertStream_self]
      · exfalso
        simp [stopStream, hid, hne, hs, hact, waitDone_false o1 h1,
          waitDone_false o2 h2] at herr
  · refine ⟨s, ?_, by simpa using hact⟩
    simp [stopStream, hid, hne, hs, hact]

/-- The configuration used by the C5 witness: `sampleCfg` with a new
input source. -/
def cfgTwo : HLSConfig := { sampleCfg with InputPath := "two.ts" }

/-- C5: `Update` is `Stop` then `Start` under the same identity: it fails
with "stream not found" when the id is absent, propagates a `Stop` error
without launching anything, and otherwise its result is exactly that of
the subsequent `Start`; in the successful case it performs exactly one
new launch whose argument vector carries the new configuration's input
source. -/
theorem update_is_stop_then_start (m : Manager) (id : String)
    (cfg : HLSConfig) (sn : Nat) (o1 o2 : WaitOutcome) (w : Option String)
    (rn : Nat) (mk st : Option String) (p : Int) (n1 n2 : Nat)
    (hid : trimSpace id = id) (hne : id ≠ "") :
    (lookupStream m.streams id = none →
      updateStream m id cfg sn o1 o2 w rn mk st p n1 n2 =
        ⟨m, none, some "stream not found", 0⟩) ∧
    (∀ s e, lookupStream m.streams id = some s →
      (stopStream m id sn o1 o2 w rn).err = some e →
      updateStream m id cfg sn o1 o2 w rn mk st p n1 n2 =
        ⟨(stopStream m id sn o1 o2 w rn).mgr, none, some e, 0⟩) ∧
    (∀ s, lookupStream m.streams id = some s →
      (stopStream m id sn o1 o2 w rn).err = none →
      updateStream m id cfg sn o1 o2 w rn mk st p n1 n2 =
        ⟨(startStream (stopStream m id sn o1 o2 w rn).mgr id cfg
            mk st p n1 n2).mgr,
         (startStream (stopStream m id sn o1 o2 w rn).mgr id cfg
            mk st p n1 n2).status,
         (startStream (stopStream m id sn o1 o2 w rn).mgr id cfg
            mk st p n1 n2).err,
         (startStream (stopStream m id sn o1 o2 w rn).mgr id cfg
            mk st p n1 n2).launches⟩) ∧
    (∀ s norm, lookupStream m.streams id = some s →
      (stopStream m id sn o1 o2 w rn).err = none →
      normalizeConfig cfg = .ok norm →
      (updateStream m id cfg sn o1 o2 w rn none none p n1 n2).launches = 1 ∧
      ∃ s', lookupStream
          (updateStream m id cfg sn o1 o2 w rn none none p n1 n2).mgr.streams
          id = some s' ∧
        s'.args = buildHLSArgs norm ∧
        ∃ pre post, s'.args = pre ++ ["-i", norm.InputPath] ++ post) := by
  refine ⟨?_, ?_, ?_, ?_⟩
  · intro h; simp [updateStream, hid, hne, h]
  · intro s e hs herr
    simp [updateStream, hid, hne, hs, herr]
  · intro s hs herr
    simp [updateStream, hid, hne, hs, herr]
  · intro s norm hs herr hnorm
    obtain ⟨s2, hlk2, hinact⟩ := stopStream_success_inactive m id s sn o1 o2
      w rn hid hne hs herr
    have hupd : updateStream m id cfg sn o1 o2 w rn none none p n1 n2 =
        ⟨(startStream (stopStream m id sn o1 o2 w rn).mgr id cfg
            none none p n1 n2).mgr,
         (startStream (stopStream m id sn o1 o2 w rn).mgr id cfg
            none none p n1 n2).status,
         (startStream (stopStream m id sn o1 o2 w rn).mgr id cfg
            none none p n1 n2).err,
         (startStream (stopStream m id sn o1 o2 w rn).mgr id cfg
            none none p n1 n2).launches⟩ := by
      simp [updateStream, hid, hne, hs, herr]
    have hcond : (lookupStream
        (stopStream m id sn o1 o2 w rn).mgr.streams id).elim false
        (fun x => x.isActive) = false := by
      rw [hlk2]; simpa using hinact
    rw [hupd]
    constructor
    · simp only [startStream, hid]
      rw [if_neg hne, hnorm]
      simp only [hcond, Bool.false_eq_true, if_false]
    · simp only [startStream, hid]
      rw [if_neg hne, hnorm]
      simp only [hcond, Bool.false_eq_true, if_false]
      exact ⟨_, lookupStream_insertStream_self _ id _, rfl,
        buildHLSArgs_has_input norm⟩

/-- Closed instance for C5: updating the running `live` to input
`two.ts` succeeds with exactly one new launch whose argument vector is
built from the new configuration. -/
theorem update_is_stop_then_start_witness :
    (updateStream sampleMgr "live" cfgTwo 3 WaitOutcome.done
      WaitOutcome.done none 9 none none 302 10 11).launches = 1 ∧
    (lookupStream (updateStream sampleMgr "live" cfgTwo 3 WaitOutcome.done
      WaitOutcome.done none 9 none none 302 10 11).mgr.streams "live").map
        ManagedStream.args = some (buildHLSArgs cfgTwo) := by
  obtain ⟨hl, s', hlk, hargs, -⟩ :=
    (update_is_stop_then_start sampleMgr "live" cfgTwo 3 WaitOutcome.done
      WaitOutcome.done none 9 none none 302 10 11 rfl (by decide)).2.2.2
      sampleStream cfgTwo rfl rfl rfl
  refine ⟨hl, ?_⟩
  rw [hlk]
  simp [hargs]
